import Mathlib

/-!
Verification development for the mlhub package manager core
(`mlhub/commands.py`): version reconciliation, the acquisition pipeline,
the installer disposition logic, command dispatch and removal.

The Python code is shallowly embedded: effectful steps (prompts, network
probe and transfer, the child process) are parameters of the embedded
functions, and the filesystem state relevant to a claim (the installed
model directory, a downloaded archive) is passed explicitly.
-/

namespace Mlhub

/-! ## Version comparison: `distutils.version.StrictVersion`

`install_model` compares versions with `StrictVersion` (commands.py lines
220-228).  `StrictVersion` parses a version string against the anchored
pattern  digits "." digits ("." digits)? (("a"|"b") digits)?  (the match
also tolerates one trailing newline since the pattern ends in a dollar
anchor), the missing patch component defaulting to 0, and compares by the
numeric triple first and the prerelease pair second, where a prerelease
version sorts below the same triple without a prerelease. -/

structure StrictVersion where
  major : Nat
  minor : Nat
  patch : Nat
  prerelease : Option (Char × Nat)
  deriving Repr, DecidableEq

/-- The numeric value of a nonempty run of decimal digit characters,
as Python's `int` reads the digit groups of the version pattern. -/
def natOfDigits (ds : List Char) : Nat :=
  ds.foldl (fun n c => 10 * n + (c.toNat - 48)) 0

/-- Split a character list into its maximal leading run of decimal
digits and the remainder (the greedy behaviour of a digits group). -/
def spanDigits : List Char → List Char × List Char
  | [] => ([], [])
  | c :: cs =>
    if c.isDigit then
      let p := spanDigits cs
      (c :: p.1, p.2)
    else ([], c :: cs)

/-- Read one nonempty digit group; fails when no leading digit exists. -/
def parseNum (cs : List Char) : Option (Nat × List Char) :=
  let p := spanDigits cs
  if p.1 = [] then none else some (natOfDigits p.1, p.2)

/-- The end of the version string: the dollar anchor of the pattern
matches the very end or the position before one final newline. -/
def atEnd (cs : List Char) : Bool :=
  cs = [] ∨ cs = ['\n']

/-- After the numeric components: either the string ends, or a
prerelease marker "a"/"b" followed by a digit group ends it. -/
def parseTail (maj minr pat : Nat) (cs : List Char) : Option StrictVersion :=
  if atEnd cs then some ⟨maj, minr, pat, none⟩
  else
    match cs with
    | [] => none
    | c :: rest =>
      if c = 'a' ∨ c = 'b' then
        match parseNum rest with
        | some (n, rest2) =>
          if atEnd rest2 then some ⟨maj, minr, pat, some (c, n)⟩ else none
        | none => none
      else none

/-- `StrictVersion` parsing on the character list of the input: major
digits, a literal dot, minor digits, then the optional dot-patch
(present exactly when a dot follows, as the regex backtracks any
failed patch attempt into an overall failure), then `parseTail`. -/
def parseVersionChars (cs : List Char) : Option StrictVersion :=
  match parseNum cs with
  | none => none
  | some (maj, r1) =>
    match r1 with
    | [] => none
    | c1 :: r2 =>
      if c1 = '.' then
        match parseNum r2 with
        | none => none
        | some (minr, r3) =>
          match r3 with
          | [] => parseTail maj minr 0 []
          | c2 :: r4 =>
            if c2 = '.' then
              match parseNum r4 with
              | none => none
              | some (pat, r5) => parseTail maj minr pat r5
            else parseTail maj minr 0 (c2 :: r4)
      else none

/-- `StrictVersion(s)`: `some` on a well-formed version string, `none`
where the Python constructor raises `ValueError`. -/
def parseStrictVersion (s : String) : Option StrictVersion :=
  parseVersionChars s.data

def versionTriple (v : StrictVersion) : Nat × Nat × Nat :=
  (v.major, v.minor, v.patch)

/-- Python tuple `<` on two numeric triples (lexicographic). -/
def tupleLt (a b : Nat × Nat × Nat) : Bool :=
  decide (a.1 < b.1) ||
    (decide (a.1 = b.1) &&
      (decide (a.2.1 < b.2.1) ||
        (decide (a.2.1 = b.2.1) && decide (a.2.2 < b.2.2))))

/-- Comparison of the prerelease fields once the triples are equal: no
prerelease sorts above any prerelease; two prereleases compare as
Python pairs (letter first, then number). -/
def preCmp : Option (Char × Nat) → Option (Char × Nat) → Ordering
  | none, none => .eq
  | some _, none => .lt
  | none, some _ => .gt
  | some p, some q =>
    if p = q then .eq
    else if p.1 < q.1 ∨ (p.1 = q.1 ∧ p.2 < q.2) then .lt
    else .gt

/-- `StrictVersion._cmp`: compare the numeric triples; on equality fall
through to the prerelease fields. -/
def StrictVersion.cmp (x y : StrictVersion) : Ordering :=
  if versionTriple x ≠ versionTriple y then
    (if tupleLt (versionTriple x) (versionTriple y) then .lt else .gt)
  else preCmp x.prerelease y.prerelease

/-- The comparison underlying the installer disposition decision:
parse both strings as `StrictVersion` and compare; `none` when either
parse raises (the spec's `InvalidVersionFormat`). -/
def compareVersions (a b : String) : Option Ordering :=
  match parseStrictVersion a, parseStrictVersion b with
  | some x, some y => some (x.cmp y)
  | _, _ => none

/-! ## The installer: `install_model` (commands.py lines 163-285)

The installation directory of the model being installed is the piece of
filesystem state the installer mutates: `Option ModelDir`, where `none`
means `packageRoot/modelName` does not exist.  The content field stands
for the bytes of the directory tree, so value equality is byte-for-byte
equality.  The user's reply to the `yes_or_no` disposition prompt and
the outcomes of the two network steps (the `requests.head` probe and
the `urlretrieve` transfer) are inputs. -/

/-- The on-disk installation of one model name: its declared version
and the remaining bytes of the directory tree. -/
structure ModelDir where
  version : String
  content : String
  deriving Repr, DecidableEq

/-- Which disposition prompt `install_model` issues over an existing
installation (commands.py lines 220-228). -/
inductive InstallPrompt
  | downgrade
  | replace
  | upgrade
  deriving Repr, DecidableEq

/-- How one run of `install_model` ends. `versionError` is the
`ValueError` out of `StrictVersion`; `cancelled` is the `sys.exit(1)`
on a declined prompt; the two download failures are the exceptions
raised at lines 249 and 260; `extracted` is the successful unpacking
of the archive into the package root. -/
inductive InstallResult
  | versionError
  | cancelled
  | urlAccessError (url : String)
  | downloadHalt (url : String) (reason : String)
  | extracted
  deriving Repr, DecidableEq

/-- The environment of one `install_model` run: the reply to the
disposition prompt, whether the `requests.head` probe returned the ok
status, whether `urlretrieve` raised an `HTTPError` (with its reason),
and the bytes the archive extracts to. -/
structure InstallEnv where
  answer : Bool
  probeOk : Bool
  transferError : Option String
  newContent : String
  deriving Repr, DecidableEq

/-- The download step (commands.py lines 240-260): nothing to do for a
local archive; for a URL, a failed probe raises
`ModelURLAccessException(url)` and a failed transfer raises
`ModelDownloadHaltException(url, reason)`.  The informational size
print between the two is presentational and carries no state. -/
def downloadPhase (url : Option String) (env : InstallEnv) : Option InstallResult :=
  match url with
  | none => none
  | some u =>
    if !env.probeOk then some (.urlAccessError u)
    else
      match env.transferError with
      | some r => some (.downloadHalt u r)
      | none => none

/-- One run of `install_model` over the state of the target model's
installation directory.  `url` is `none` exactly for a local archive
reference.  Mirrors the control flow of commands.py lines 213-281:
when the installation path exists, compare the installed version with
the candidate (either `StrictVersion` raising aborts before any
prompt), prompt per the comparison, `sys.exit(1)` on decline, else
`rmtree` the installation; then download when a URL is involved; then
extract the archive into the package root. -/
def install_model (st : Option ModelDir) (version : String)
    (url : Option String) (env : InstallEnv) :
    Option InstallPrompt × Option ModelDir × InstallResult :=
  match st with
  | none =>
    (match downloadPhase url env with
     | some e => (none, none, e)
     | none => (none, some ⟨version, env.newContent⟩, .extracted))
  | some d =>
    match parseStrictVersion d.version, parseStrictVersion version with
    | some a, some b =>
      let p :=
        if a.cmp b = .gt then InstallPrompt.downgrade
        else if a.cmp b = .eq then InstallPrompt.replace
        else InstallPrompt.upgrade
      if !env.answer then (some p, some d, .cancelled)
      else
        match downloadPhase url env with
        | some e => (some p, none, e)
        | none => (some p, some ⟨version, env.newContent⟩, .extracted)
    | _, _ => (none, some d, .versionError)

/-- The prompt a run issued, if any. -/
def installPrompt (r : Option InstallPrompt × Option ModelDir × InstallResult) :
    Option InstallPrompt := r.1

/-- The state of the installation directory after the run. -/
def installedAfter (r : Option InstallPrompt × Option ModelDir × InstallResult) :
    Option ModelDir := r.2.1

/-- The outcome of the run. -/
def installOutcome (r : Option InstallPrompt × Option ModelDir × InstallResult) :
    InstallResult := r.2.2

/-- The tool's process exit status for an install outcome: 0 on
success; the declined prompt is `sys.exit(1)`; the raised exceptions
terminate the process with a nonzero status. -/
def installExitCode : InstallResult → Nat
  | .extracted => 0
  | _ => 1

/-! ## Command dispatch: `dispatch` (commands.py lines 501-583) -/

/-- The fields of the installed model's DESCRIPTION metadata that
`dispatch` reads: the declared scripting language, the optional set of
commands requiring a graphic display, and the declared command list. -/
structure Description where
  languages : String
  displayCmds : Option (List String)
  commands : List String
  deriving Repr, DecidableEq

/-- Python's `str.lower()` applied character by character, as used on
the interactive replies. -/
def pyLower (s : String) : String :=
  ⟨s.data.map Char.toLower⟩

/-- Python's substring test `needle in haystack` on character lists. -/
def substrIn (needle : List Char) : List Char → Bool
  | [] => needle.isPrefixOf []
  | c :: t => needle.isPrefixOf (c :: t) || substrIn needle t

/-- The language table of commands.py line 538, in insertion order. -/
def lang_opts : List (String × String) := [("python", "py"), ("R", "R")]

/-- The loop of commands.py lines 539-542: the first table key that the
declared language is a substring of gives the extension; otherwise the
declared language itself is used as the extension, unchanged. -/
def langExtension (lang : String) : String :=
  match lang_opts.find? (fun kv => substrIn lang.data kv.1.data) with
  | some kv => kv.2
  | none => lang

/-- How one `dispatch` run ends.  `noInterpreter` is the failure of
the interpreter-selection step at line 564; `errorPrinted` is the
branch at lines 576-578: the captured standard error is printed and
the function then returns normally. -/
inductive DispatchResult
  | notInstalled
  | displayCancelled
  | commandNotFound (cmd : String) (model : String)
  | noInterpreter (ext : String)
  | errorPrinted (code : Int) (stderr : String)
  | success
  deriving Repr, DecidableEq

/-- Modelled from the spec: `utils.interpreter`, called at commands.py
line 564 on the composed script name; utils.py is not part of src.
Spec section 4.5 step 5: select the interpreter by a fixed mapping
from the script extension to an interpreter name ("py" to the python
interpreter, "R" to the R interpreter); unknown extensions fail with
`NoInterpreterForLanguage`, a fatal error with nonzero exit per the
spec's section 7 taxonomy. -/
def interpreter (ext : String) : Option String :=
  if ext = "py" then some "python"
  else if ext = "R" then some "Rscript"
  else none

/-- The environment of one `dispatch` run: whether `DISPLAY` is unset
or empty, the (lowered) reply to the display prompt, the script files
present in the model directory, and the child process's exit code and
captured standard error. -/
structure DispatchEnv where
  displayVarEmpty : Bool
  displayChoice : String
  scriptOnDisk : List String
  childCode : Int
  childStderr : String
  deriving Repr, DecidableEq

/-- Lines 518: the command is listed under `display` in the metadata
and the `DISPLAY` environment variable is empty. -/
def needsDisplayPrompt (desc : Description) (cmd : String) (env : DispatchEnv) : Bool :=
  (match desc.displayCmds with
   | some l => l.contains cmd
   | none => false) && env.displayVarEmpty

/-- Lines 518-530: the display prompt was issued and the lowered reply
was anything other than "y". -/
def displayDeclined (desc : Description) (cmd : String) (env : DispatchEnv) : Bool :=
  needsDisplayPrompt desc cmd env && !(pyLower env.displayChoice == "y")

/-- One run of `dispatch` (commands.py lines 501-583): check the model
is installed, gate on the display prompt, resolve the script name from
the declared language, fail with the command-not-found message when
the command is undeclared or the script file is absent, select the
interpreter for the script's extension (line 564, failing on unknown
extensions), then run the child process, printing its captured
standard error on a nonzero exit and returning normally either way. -/
def dispatch (installed : Bool) (desc : Description) (model cmd : String)
    (env : DispatchEnv) : DispatchResult :=
  if !installed then .notInstalled
  else if displayDeclined desc cmd env then .displayCancelled
  else
    let ext := langExtension desc.languages
    let script := cmd ++ "." ++ ext
    if !(desc.commands.contains cmd) || !(env.scriptOnDisk.contains script) then
      .commandNotFound cmd model
    else
      match interpreter ext with
      | none => .noInterpreter ext
      | some _ =>
        if env.childCode != 0 then .errorPrinted env.childCode env.childStderr
        else .success

/-- The tool's process exit status after a dispatch.  The three
resolution failures and the declined display prompt terminate with a
nonzero status; in the remaining branches `dispatch` returns normally
so the process exits 0 — in particular the child's nonzero exit code
is not propagated. -/
def dispatchExitCode : DispatchResult → Nat
  | .notInstalled => 1
  | .displayCancelled => 1
  | .commandNotFound _ _ => 1
  | .noInterpreter _ => 1
  | .errorPrinted _ _ => 0
  | .success => 0

/-! ## Removal: `remove_model` and `remove_mlm` (commands.py 600-646) -/

/-- `remove_model` (lines 617-646) applied to the target directory
tree (one model, or the whole package root): the lowered reply must be
exactly "y" for the `rmtree`; any other reply, the empty one included,
deletes nothing. -/
def remove_model (target : Option ModelDir) (response : String) : Option ModelDir :=
  if pyLower response = "y" then none else target

/-- One iteration of `remove_mlm` (lines 600-610) on a downloaded
archive: the file is removed when the lowered reply is "y" or the
reply is empty. -/
def remove_mlm_file (archive : Option String) (response : String) : Option String :=
  if pyLower response = "y" ∨ pyLower response = "" then none else archive

/-! ## Spec-side characterisations -/

/-- Modelled from the spec: componentwise numeric ordering of the three
version components, major first, then minor, then patch.  This is the
ordering the comparison is claimed to agree with. -/
def specTripleCompare (a b : Nat × Nat × Nat) : Ordering :=
  (compare a.1 b.1).then ((compare a.2.1 b.2.1).then (compare a.2.2 b.2.2))

/-- Strict lexicographic order on numeric triples, as a proposition. -/
def lexLt3 (a b : Nat × Nat × Nat) : Prop :=
  a.1 < b.1 ∨ (a.1 = b.1 ∧ (a.2.1 < b.2.1 ∨ (a.2.1 = b.2.1 ∧ a.2.2 < b.2.2)))

/-- A nonempty run of decimal digit characters. -/
def digitRun (ds : List Char) : Prop :=
  ds ≠ [] ∧ ∀ c ∈ ds, c.isDigit = true

/-- The optional patch part of the version pattern: absent, or a dot
followed by a digit run. -/
def patchShape (t : List Char) : Prop :=
  t = [] ∨ ∃ d3, t = '.' :: d3 ∧ digitRun d3

/-- The optional prerelease part of the version pattern: absent, or the
letter a or b followed by a digit run. -/
def preShape (p : List Char) : Prop :=
  p = [] ∨ ∃ c d4, p = c :: d4 ∧ (c = 'a' ∨ c = 'b') ∧ digitRun d4

/-- The end of the pattern: nothing, or one final newline (tolerated by
the dollar anchor). -/
def endShape (e : List Char) : Prop :=
  e = [] ∨ e = ['\n']

/-- The exact language of the `StrictVersion` pattern: digits, a dot,
digits, an optional dot-digits patch, an optional prerelease marker
with digits, an optional final newline. -/
def versionShape (cs : List Char) : Prop :=
  ∃ d1 d2 t p e,
    cs = d1 ++ '.' :: (d2 ++ t ++ p ++ e) ∧
    digitRun d1 ∧ digitRun d2 ∧ patchShape t ∧ preShape p ∧ endShape e

/-- A character list that does not begin with a decimal digit. -/
def noDigitHead (cs : List Char) : Prop :=
  cs = [] ∨ ∃ c t, cs = c :: t ∧ c.isDigit = false

/-! ## Lemmas about the version comparator -/

theorem tupleLt_iff (a b : Nat × Nat × Nat) : tupleLt a b = true ↔ lexLt3 a b := by
  simp [tupleLt, lexLt3]

theorem specTripleCompare_eq_eq_iff (a b : Nat × Nat × Nat) :
    specTripleCompare a b = .eq ↔ a = b := by
  obtain ⟨a1, a2, a3⟩ := a
  obtain ⟨b1, b2, b3⟩ := b
  unfold specTripleCompare
  dsimp only
  cases h1 : compare a1 b1 <;> cases h2 : compare a2 b2 <;> cases h3 : compare a3 b3 <;>
    simp_all [Nat.compare_eq_lt, Nat.compare_eq_eq, Nat.compare_eq_gt, Ordering.then,
      Prod.ext_iff] <;> omega

theorem specTripleCompare_eq_lt_iff (a b : Nat × Nat × Nat) :
    specTripleCompare a b = .lt ↔ lexLt3 a b := by
  obtain ⟨a1, a2, a3⟩ := a
  obtain ⟨b1, b2, b3⟩ := b
  unfold specTripleCompare lexLt3
  dsimp only
  cases h1 : compare a1 b1 <;> cases h2 : compare a2 b2 <;> cases h3 : compare a3 b3 <;>
    simp_all [Nat.compare_eq_lt, Nat.compare_eq_eq, Nat.compare_eq_gt, Ordering.then] <;>
    omega

theorem specTripleCompare_swap (a b : Nat × Nat × Nat) :
    specTripleCompare b a = (specTripleCompare a b).swap := by
  obtain ⟨a1, a2, a3⟩ := a
  obtain ⟨b1, b2, b3⟩ := b
  unfold specTripleCompare
  dsimp only
  rw [← Nat.compare_swap a1 b1, ← Nat.compare_swap a2 b2, ← Nat.compare_swap a3 b3]
  cases compare a1 b1 <;> cases compare a2 b2 <;> cases compare a3 b3 <;> rfl

theorem specTripleCompare_eq_gt_iff (a b : Nat × Nat × Nat) :
    specTripleCompare a b = .gt ↔ lexLt3 b a := by
  rw [← specTripleCompare_eq_lt_iff b a, specTripleCompare_swap b a]
  cases h : specTripleCompare b a <;> simp [h, Ordering.swap]

theorem lexLt3_total_of_ne (a b : Nat × Nat × Nat) (h : a ≠ b) (hn : ¬ lexLt3 a b) :
    lexLt3 b a := by
  obtain ⟨a1, a2, a3⟩ := a
  obtain ⟨b1, b2, b3⟩ := b
  simp [lexLt3, Prod.ext_iff] at hn h ⊢
  omega

theorem cmp_eq_specTriple (x y : StrictVersion)
    (hx : x.prerelease = none) (hy : y.prerelease = none) :
    x.cmp y = specTripleCompare (versionTriple x) (versionTriple y) := by
  unfold StrictVersion.cmp
  by_cases h : versionTriple x = versionTriple y
  · rw [if_neg (by simpa using h), hx, hy]
    exact ((specTripleCompare_eq_eq_iff _ _).mpr h).symm
  · rw [if_pos (by simpa using h)]
    cases htl : tupleLt (versionTriple x) (versionTriple y)
    · have hnot : ¬ lexLt3 (versionTriple x) (versionTriple y) := by
        rw [← tupleLt_iff]; simp [htl]
      have hgt : lexLt3 (versionTriple y) (versionTriple x) :=
        lexLt3_total_of_ne _ _ h hnot
      rw [if_neg (by simp)]
      exact ((specTripleCompare_eq_gt_iff _ _).mpr hgt).symm
    · rw [if_pos rfl]
      exact ((specTripleCompare_eq_lt_iff _ _).mpr ((tupleLt_iff _ _).mp htl)).symm

/-! ## Lemmas about the version parser -/

theorem spanDigits_append (cs : List Char) :
    (spanDigits cs).1 ++ (spanDigits cs).2 = cs := by
  induction cs with
  | nil => rfl
  | cons c cs ih =>
    by_cases h : c.isDigit <;> simp [spanDigits, h, ih]

theorem spanDigits_digits (cs : List Char) :
    ∀ c ∈ (spanDigits cs).1, c.isDigit = true := by
  induction cs with
  | nil => simp [spanDigits]
  | cons c cs ih =>
    by_cases h : c.isDigit
    · intro x hx
      have hsp : (spanDigits (c :: cs)).1 = c :: (spanDigits cs).1 := by
        simp [spanDigits, h]
      rw [hsp] at hx
      rcases List.mem_cons.mp hx with rfl | hx
      · exact h
      · exact ih x hx
    · simp [spanDigits, h]

theorem spanDigits_rest (cs : List Char) : noDigitHead (spanDigits cs).2 := by
  induction cs with
  | nil => left; rfl
  | cons c cs ih =>
    by_cases h : c.isDigit
    · simpa [spanDigits, h] using ih
    · right
      exact ⟨c, cs, by simp [spanDigits, h], by simp [h]⟩

theorem spanDigits_exact (ds rest : List Char)
    (hds : ∀ c ∈ ds, c.isDigit = true) (hrest : noDigitHead rest) :
    spanDigits (ds ++ rest) = (ds, rest) := by
  induction ds with
  | nil =>
    rcases hrest with h | ⟨c, t, h, hc⟩
    · subst h; rfl
    · subst h; simp [spanDigits, hc]
  | cons d ds ih =>
    have hd : d.isDigit = true := hds d (by simp)
    have hih : spanDigits (ds ++ rest) = (ds, rest) :=
      ih (fun c hc => hds c (by simp [hc]))
    simp [spanDigits, hd, hih]

theorem parseNum_sound (cs : List Char) (n : Nat) (rest : List Char)
    (h : parseNum cs = some (n, rest)) :
    ∃ ds, cs = ds ++ rest ∧ digitRun ds ∧ n = natOfDigits ds := by
  unfold parseNum at h
  by_cases he : (spanDigits cs).1 = []
  · simp [he] at h
  · rw [if_neg he] at h
    simp only [Option.some.injEq, Prod.mk.injEq] at h
    obtain ⟨hn, hr⟩ := h
    subst hn; subst hr
    exact ⟨(spanDigits cs).1, (spanDigits_append cs).symm,
      ⟨he, spanDigits_digits cs⟩, rfl⟩

theorem parseNum_rest_noDigitHead (cs : List Char) (n : Nat) (rest : List Char)
    (h : parseNum cs = some (n, rest)) : noDigitHead rest := by
  unfold parseNum at h
  by_cases he : (spanDigits cs).1 = []
  · simp [he] at h
  · rw [if_neg he] at h
    simp only [Option.some.injEq, Prod.mk.injEq] at h
    obtain ⟨hn, hr⟩ := h
    subst hr
    exact spanDigits_rest cs

theorem parseNum_complete (ds rest : List Char)
    (hds : digitRun ds) (hrest : noDigitHead rest) :
    parseNum (ds ++ rest) = some (natOfDigits ds, rest) := by
  unfold parseNum
  rw [spanDigits_exact ds rest hds.2 hrest]
  exact if_neg hds.1

theorem atEnd_of_endShape (e : List Char) (he : endShape e) : atEnd e = true := by
  rcases he with rfl | rfl <;> rfl

theorem noDigitHead_of_endShape (e : List Char) (he : endShape e) : noDigitHead e := by
  rcases he with rfl | rfl
  · left; rfl
  · right; exact ⟨'\n', [], rfl, by decide⟩

theorem noDigitHead_pre_end (p e : List Char) (hp : preShape p) (he : endShape e) :
    noDigitHead (p ++ e) := by
  rcases hp with rfl | ⟨c, d4, rfl, hab, hd4⟩
  · exact noDigitHead_of_endShape e he
  · right
    refine ⟨c, d4 ++ e, rfl, ?_⟩
    rcases hab with rfl | rfl <;> decide

theorem parseTail_sound (maj minr pat : Nat) (cs : List Char) (v : StrictVersion)
    (h : parseTail maj minr pat cs = some v) :
    ∃ p e, cs = p ++ e ∧ preShape p ∧ endShape e := by
  unfold parseTail at h
  by_cases hend : cs = [] ∨ cs = ['\n']
  · exact ⟨[], cs, rfl, Or.inl rfl, hend⟩
  · rw [if_neg (by simpa [atEnd] using hend)] at h
    rcases cs with _ | ⟨c, rest⟩
    · cases h
    · dsimp only at h
      by_cases hab : c = 'a' ∨ c = 'b'
      · rw [if_pos hab] at h
        rcases hpn : parseNum rest with _ | ⟨n, rest2⟩
        · rw [hpn] at h; cases h
        · rw [hpn] at h
          by_cases hend2 : rest2 = [] ∨ rest2 = ['\n']
          · obtain ⟨d4, hrest, hd4, hn⟩ := parseNum_sound rest n rest2 hpn
            exact ⟨c :: d4, rest2, by simp [hrest],
              Or.inr ⟨c, d4, rfl, hab, hd4⟩, hend2⟩
          · dsimp only at h
            rw [if_neg (by simp only [atEnd, decide_eq_true_eq]; exact hend2)] at h
            cases h
      · rw [if_neg hab] at h
        cases h

theorem parseTail_complete (maj minr pat : Nat) (p e : List Char)
    (hp : preShape p) (he : endShape e) :
    ∃ v, parseTail maj minr pat (p ++ e) = some v := by
  rcases hp with rfl | ⟨c, d4, rfl, hab, hd4⟩
  · refine ⟨⟨maj, minr, pat, none⟩, ?_⟩
    unfold parseTail
    rw [if_pos (by simpa [atEnd] using (atEnd_of_endShape e he))]
  · refine ⟨⟨maj, minr, pat, some (c, natOfDigits d4)⟩, ?_⟩
    unfold parseTail
    have hne : ¬((c :: d4 ++ e : List Char) = [] ∨ (c :: d4 ++ e : List Char) = ['\n']) := by
      rintro (hx | hx)
      · cases hx
      · have : c = '\n' := by
          have := List.cons.injEq c (d4 ++ e) '\n' [] ▸ hx
          simpa using congrArg (fun l => l.headI) hx
        rcases hab with rfl | rfl <;> cases this
    rw [if_neg (by simpa [atEnd] using hne)]
    have hpn : parseNum (d4 ++ e) = some (natOfDigits d4, e) :=
      parseNum_complete d4 e hd4 (noDigitHead_of_endShape e he)
    simp only [List.cons_append]
    rw [if_pos hab, hpn]
    dsimp only
    rw [if_pos (atEnd_of_endShape e he)]

theorem parseVersionChars_sound (cs : List Char) (v : StrictVersion)
    (h : parseVersionChars cs = some v) : versionShape cs := by
  unfold parseVersionChars at h
  split at h
  · cases h
  · rename_i maj r1 hpn1
    split at h
    · cases h
    · rename_i c1 r2
      by_cases hc1 : c1 = '.'
      · rw [if_pos hc1] at h
        subst hc1
        split at h
        · cases h
        · rename_i minr r3 hpn2
          obtain ⟨d1, hcs, hd1, _⟩ := parseNum_sound _ _ _ hpn1
          obtain ⟨d2, hr2, hd2, _⟩ := parseNum_sound _ _ _ hpn2
          split at h
          · obtain ⟨p, e, hsplit, hp, he⟩ := parseTail_sound _ _ _ _ _ h
            obtain ⟨rfl, rfl⟩ := List.append_eq_nil.mp hsplit.symm
            refine ⟨d1, d2, [], [], [], ?_, hd1, hd2, Or.inl rfl, hp, he⟩
            rw [hcs, hr2]
            simp
          · rename_i c2 r4
            by_cases hc2 : c2 = '.'
            · rw [if_pos hc2] at h
              subst hc2
              split at h
              · cases h
              · rename_i pat r5 hpn3
                obtain ⟨p, e, rfl, hp, he⟩ := parseTail_sound _ _ _ _ _ h
                obtain ⟨d3, hr4, hd3, _⟩ := parseNum_sound _ _ _ hpn3
                refine ⟨d1, d2, '.' :: d3, p, e, ?_, hd1, hd2,
                  Or.inr ⟨d3, rfl, hd3⟩, hp, he⟩
                rw [hcs, hr2, hr4]
                simp
            · rw [if_neg hc2] at h
              obtain ⟨p, e, hsplit, hp, he⟩ := parseTail_sound _ _ _ _ _ h
              refine ⟨d1, d2, [], p, e, ?_, hd1, hd2, Or.inl rfl, hp, he⟩
              rw [hcs, hr2, hsplit]
              simp
      · rw [if_neg hc1] at h
        cases h

theorem parseVersionChars_complete (cs : List Char) (h : versionShape cs) :
    ∃ v, parseVersionChars cs = some v := by
  obtain ⟨d1, d2, t, p, e, rfl, hd1, hd2, ht, hp, he⟩ := h
  have h1 : parseNum (d1 ++ '.' :: (d2 ++ t ++ p ++ e)) =
      some (natOfDigits d1, '.' :: (d2 ++ t ++ p ++ e)) :=
    parseNum_complete d1 _ hd1 (Or.inr ⟨'.', _, rfl, by decide⟩)
  have hhead : noDigitHead (t ++ (p ++ e)) := by
    rcases ht with rfl | ⟨d3, rfl, hd3⟩
    · exact noDigitHead_pre_end p e hp he
    · right; exact ⟨'.', d3 ++ (p ++ e), by simp, by decide⟩
  have h2 : parseNum (d2 ++ (t ++ (p ++ e))) =
      some (natOfDigits d2, t ++ (p ++ e)) :=
    parseNum_complete d2 _ hd2 hhead
  unfold parseVersionChars
  rw [h1]
  dsimp only
  rw [if_pos rfl]
  rw [show d2 ++ t ++ p ++ e = d2 ++ (t ++ (p ++ e)) by simp, h2]
  dsimp only
  rcases ht with rfl | ⟨d3, rfl, hd3⟩
  · rcases hp with rfl | ⟨c, d4, rfl, hab, hd4⟩
    · rcases he with rfl | rfl
      · exact parseTail_complete _ _ _ [] [] (Or.inl rfl) (Or.inl rfl)
      · exact parseTail_complete _ _ _ [] ['\n'] (Or.inl rfl) (Or.inr rfl)
    · rcases hab with rfl | rfl
      · exact parseTail_complete _ _ _ ('a' :: d4) e
          (Or.inr ⟨'a', d4, rfl, Or.inl rfl, hd4⟩) he
      · exact parseTail_complete _ _ _ ('b' :: d4) e
          (Or.inr ⟨'b', d4, rfl, Or.inr rfl, hd4⟩) he
  · have h3 : parseNum (d3 ++ (p ++ e)) = some (natOfDigits d3, p ++ e) :=
      parseNum_complete d3 _ hd3 (noDigitHead_pre_end p e hp he)
    obtain ⟨v, hv⟩ := parseTail_complete (natOfDigits d1) (natOfDigits d2)
      (natOfDigits d3) p e hp he
    refine ⟨v, ?_⟩
    show (match parseNum (d3 ++ (p ++ e)) with
          | none => none
          | some (pat, r5) =>
            parseTail (natOfDigits d1) (natOfDigits d2) pat r5) = some v
    rw [h3]
    exact hv

theorem downloadPhase_ne_cancelled (url : Option String) (env : InstallEnv)
    (e : InstallResult) (h : downloadPhase url env = some e) : e ≠ .cancelled := by
  rcases url with _ | u
  · simp [downloadPhase] at h
  · rcases hp : env.probeOk <;> rcases ht : env.transferError with _ | r <;>
      simp [downloadPhase, hp, ht] at h <;> (try subst h) <;> simp

/-! ## The claims -/

/-- Claim C4: for all valid version strings that are numeric
MAJOR.MINOR.PATCH triples, the comparison used by `install_model` is
antisymmetric and agrees with componentwise numeric ordering of the
three components; in particular comparing "1.2.0" with "1.10.0"
yields LESS, not the lexicographic GREATER. -/
theorem claim_C4 :
    (∀ (a b : String) (va vb : StrictVersion),
      parseStrictVersion a = some va → parseStrictVersion b = some vb →
      va.prerelease = none → vb.prerelease = none →
      compareVersions a b =
          some (specTripleCompare (versionTriple va) (versionTriple vb)) ∧
        (compareVersions a b = some .gt ↔ compareVersions b a = some .lt) ∧
        (compareVersions a b = some .eq ↔ compareVersions b a = some .eq)) ∧
    compareVersions "1.2.0" "1.10.0" = some .lt := by
  constructor
  · intro a b va vb ha hb hpa hpb
    have h1 : compareVersions a b = some (va.cmp vb) := by
      simp [compareVersions, ha, hb]
    have h2 : compareVersions b a = some (vb.cmp va) := by
      simp [compareVersions, ha, hb]
    rw [h1, h2, cmp_eq_specTriple va vb hpa hpb, cmp_eq_specTriple vb va hpb hpa]
    refine ⟨rfl, ?_, ?_⟩ <;>
      rw [specTripleCompare_swap (versionTriple va) (versionTriple vb)] <;>
      cases h : specTripleCompare (versionTriple va) (versionTriple vb) <;>
      simp [h, Ordering.swap]
  · decide

/-- Witness for C4 at the concrete pair "2.0.0", "1.9.9". -/
theorem claim_C4_witness :
    compareVersions "2.0.0" "1.9.9" =
        some (specTripleCompare (versionTriple ⟨2, 0, 0, none⟩)
          (versionTriple ⟨1, 9, 9, none⟩)) ∧
      (compareVersions "2.0.0" "1.9.9" = some .gt ↔
        compareVersions "1.9.9" "2.0.0" = some .lt) ∧
      (compareVersions "2.0.0" "1.9.9" = some .eq ↔
        compareVersions "1.9.9" "2.0.0" = some .eq) :=
  claim_C4.1 "2.0.0" "1.9.9" ⟨2, 0, 0, none⟩ ⟨1, 9, 9, none⟩
    (by decide) (by decide) rfl rfl

/-- Claim C2: over an existing installation of the same model name,
declining the disposition prompt exits nonzero and leaves the
installation directory byte-for-byte unchanged, with no extraction and
no removal. -/
theorem claim_C2 :
    ∀ (d : ModelDir) (version : String) (url : Option String) (env : InstallEnv)
      (a b : StrictVersion),
      parseStrictVersion d.version = some a →
      parseStrictVersion version = some b →
      env.answer = false →
      installedAfter (install_model (some d) version url env) = some d ∧
        installOutcome (install_model (some d) version url env) = .cancelled ∧
        installExitCode
          (installOutcome (install_model (some d) version url env)) ≠ 0 := by
  intro d version url env a b ha hb hans
  simp [install_model, installedAfter, installOutcome, installExitCode, ha, hb, hans]

/-- Witness for C2: an installed 1.0.0 survives a declined replace by
1.0.0 untouched. -/
theorem claim_C2_witness :
    installedAfter (install_model (some ⟨"1.0.0", "bytes"⟩) "1.0.0" none
        ⟨false, true, none, "new"⟩) = some ⟨"1.0.0", "bytes"⟩ ∧
      installOutcome (install_model (some ⟨"1.0.0", "bytes"⟩) "1.0.0" none
        ⟨false, true, none, "new"⟩) = .cancelled ∧
      installExitCode (installOutcome (install_model (some ⟨"1.0.0", "bytes"⟩)
        "1.0.0" none ⟨false, true, none, "new"⟩)) ≠ 0 :=
  claim_C2 ⟨"1.0.0", "bytes"⟩ "1.0.0" none ⟨false, true, none, "new"⟩
    ⟨1, 0, 0, none⟩ ⟨1, 0, 0, none⟩ (by decide) (by decide) rfl

/-- Claim C3: `install_model` prompts exactly when an installation of
the model name exists, the prompt kind follows the comparison of the
installed version with the candidate (GREATER downgrade, EQUAL
replace, LESS upgrade), and a fresh install never prompts and goes to
extraction. -/
theorem claim_C3 :
    ∀ (version : String) (url : Option String) (env : InstallEnv) (d : ModelDir)
      (a b : StrictVersion),
      (installPrompt (install_model none version url env) = none ∧
        installOutcome (install_model none version url env) ≠ .cancelled ∧
        (downloadPhase url env = none →
          installOutcome (install_model none version url env) = .extracted)) ∧
      (parseStrictVersion d.version = some a → parseStrictVersion version = some b →
        installPrompt (install_model (some d) version url env) =
          some (if a.cmp b = .gt then .downgrade
                else if a.cmp b = .eq then .replace
                else .upgrade)) := by
  intro version url env d a b
  refine ⟨⟨?_, ?_, ?_⟩, ?_⟩
  · cases h : downloadPhase url env <;> simp [install_model, installPrompt, h]
  · cases h : downloadPhase url env with
    | none => simp [install_model, installOutcome, h]
    | some e =>
      simpa [install_model, installOutcome, h] using
        downloadPhase_ne_cancelled url env e h
  · intro h; simp [install_model, installOutcome, h]
  · intro ha hb
    cases henv : env.answer <;> cases h : downloadPhase url env <;>
      simp [install_model, installPrompt, ha, hb, henv, h]

/-- Witness for C3 at an installed 1.2.0 and candidate 1.1.0 (the
downgrade prompt). -/
theorem claim_C3_witness :
    (installPrompt (install_model none "1.1.0" none ⟨true, true, none, "c"⟩) = none ∧
      installOutcome (install_model none "1.1.0" none ⟨true, true, none, "c"⟩) ≠
        .cancelled ∧
      (downloadPhase none ⟨true, true, none, "c"⟩ = none →
        installOutcome (install_model none "1.1.0" none ⟨true, true, none, "c"⟩) =
          .extracted)) ∧
    (parseStrictVersion (ModelDir.mk "1.2.0" "b").version = some ⟨1, 2, 0, none⟩ →
      parseStrictVersion "1.1.0" = some ⟨1, 1, 0, none⟩ →
      installPrompt (install_model (some ⟨"1.2.0", "b"⟩) "1.1.0" none
          ⟨true, true, none, "c"⟩) =
        some (if StrictVersion.cmp ⟨1, 2, 0, none⟩ ⟨1, 1, 0, none⟩ = .gt then .downgrade
              else if StrictVersion.cmp ⟨1, 2, 0, none⟩ ⟨1, 1, 0, none⟩ = .eq then .replace
              else .upgrade)) :=
  claim_C3 "1.1.0" none ⟨true, true, none, "c"⟩ ⟨"1.2.0", "b"⟩
    ⟨1, 2, 0, none⟩ ⟨1, 1, 0, none⟩

/-- Claim C6: in the acquisition step, a non-success probe status fails
with `ModelURLAccessException` carrying the URL, a transfer failure
fails with the distinct `ModelDownloadHaltException` carrying the URL
and a reason, and the two are never conflated. -/
theorem claim_C6 :
    ∀ (u version : String) (env : InstallEnv),
      (env.probeOk = false → downloadPhase (some u) env = some (.urlAccessError u)) ∧
      (env.probeOk = true → ∀ r, env.transferError = some r →
        downloadPhase (some u) env = some (.downloadHalt u r)) ∧
      (∀ r, (InstallResult.urlAccessError u) ≠ .downloadHalt u r) ∧
      (env.probeOk = false →
        installOutcome (install_model none version (some u) env) = .urlAccessError u) ∧
      (env.probeOk = true → ∀ r, env.transferError = some r →
        installOutcome (install_model none version (some u) env) = .downloadHalt u r) := by
  intro u version env
  refine ⟨?_, ?_, ?_, ?_, ?_⟩
  · intro h; simp [downloadPhase, h]
  · intro h r hr; simp [downloadPhase, h, hr]
  · intro r; simp
  · intro h; simp [install_model, installOutcome, downloadPhase, h]
  · intro h r hr; simp [install_model, installOutcome, downloadPhase, h, hr]

/-- Witness for C6: a failed probe on a concrete URL. -/
theorem claim_C6_witness :
    downloadPhase (some "http://host/m_1.0.0.mlm") ⟨true, false, none, "c"⟩ =
        some (.urlAccessError "http://host/m_1.0.0.mlm") ∧
      downloadPhase (some "http://host/m_1.0.0.mlm") ⟨true, true, some "not found", "c"⟩ =
        some (.downloadHalt "http://host/m_1.0.0.mlm" "not found") :=
  ⟨(claim_C6 "http://host/m_1.0.0.mlm" "1.0.0" ⟨true, false, none, "c"⟩).1 rfl,
   ((claim_C6 "http://host/m_1.0.0.mlm" "1.0.0"
     ⟨true, true, some "not found", "c"⟩).2.1 rfl "not found" rfl)⟩

/-- Claim C10: a confirmed install of a URL reference over an existing
installation removes the old installation before the download, so a
probe or transfer failure leaves no installation of the model name. -/
theorem claim_C10 :
    ∀ (d : ModelDir) (version u : String) (env : InstallEnv) (a b : StrictVersion),
      parseStrictVersion d.version = some a →
      parseStrictVersion version = some b →
      env.answer = true →
      (env.probeOk = false ∨ env.transferError ≠ none) →
      installedAfter (install_model (some d) version (some u) env) = none ∧
        (installOutcome (install_model (some d) version (some u) env) =
            .urlAccessError u ∨
          ∃ r, installOutcome (install_model (some d) version (some u) env) =
            .downloadHalt u r) := by
  intro d version u env a b ha hb hans hfail
  rcases hp : env.probeOk
  · simp [install_model, installedAfter, installOutcome, downloadPhase, ha, hb, hans, hp]
  · rcases ht : env.transferError with _ | r
    · rcases hfail with h | h
      · rw [hp] at h; cases h
      · exact absurd ht h
    · constructor <;>
        simp [install_model, installedAfter, installOutcome, downloadPhase,
          ha, hb, hans, hp, ht]

/-- Witness for C10: a confirmed upgrade whose transfer halts leaves no
installation. -/
theorem claim_C10_witness :
    installedAfter (install_model (some ⟨"1.0.0", "b"⟩) "1.1.0"
        (some "http://host/m_1.1.0.mlm") ⟨true, true, some "timeout", "c"⟩) = none ∧
      (installOutcome (install_model (some ⟨"1.0.0", "b"⟩) "1.1.0"
          (some "http://host/m_1.1.0.mlm") ⟨true, true, some "timeout", "c"⟩) =
          .urlAccessError "http://host/m_1.1.0.mlm" ∨
        ∃ r, installOutcome (install_model (some ⟨"1.0.0", "b"⟩) "1.1.0"
          (some "http://host/m_1.1.0.mlm") ⟨true, true, some "timeout", "c"⟩) =
          .downloadHalt "http://host/m_1.1.0.mlm" r) :=
  claim_C10 ⟨"1.0.0", "b"⟩ "1.1.0" "http://host/m_1.1.0.mlm"
    ⟨true, true, some "timeout", "c"⟩ ⟨1, 0, 0, none⟩ ⟨1, 1, 0, none⟩
    (by decide) (by decide) rfl (by simp)

/-- Claim C1 counterexample: a child process exiting 3 has its
captured standard error printed, but `dispatch` then returns normally,
so the tool's exit code is 0, not the child's 3 and not any distinct
failure code.  The claim's "nonzero tool exit" is false on the code. -/
theorem claim_C1_counterexample :
    dispatch true ⟨"python", none, ["demo"]⟩ "mod" "demo"
        ⟨false, "", ["demo.py"], 3, "boom"⟩ = .errorPrinted 3 "boom" ∧
      dispatchExitCode (dispatch true ⟨"python", none, ["demo"]⟩ "mod" "demo"
        ⟨false, "", ["demo.py"], 3, "boom"⟩) = 0 := by
  constructor <;> rfl

/-- Claim C1 amended: dispatching an installed model's command whose
resolution fully succeeds (display gate passed, command declared,
script on disk, interpreter found for the script's extension) surfaces
the captured standard-error text when the child exits nonzero, but
the tool's process still exits 0 — the child's exit code is not
propagated; a child exiting 0 yields success with no error. -/
theorem claim_C1_amended :
    ∀ (desc : Description) (model cmd : String) (env : DispatchEnv),
      displayDeclined desc cmd env = false →
      cmd ∈ desc.commands →
      (cmd ++ "." ++ langExtension desc.languages) ∈ env.scriptOnDisk →
      (interpreter (langExtension desc.languages)).isSome = true →
      (env.childCode ≠ 0 →
        dispatch true desc model cmd env =
            .errorPrinted env.childCode env.childStderr ∧
          dispatchExitCode (dispatch true desc model cmd env) = 0) ∧
      (env.childCode = 0 →
        dispatch true desc model cmd env = .success ∧
          dispatchExitCode (dispatch true desc model cmd env) = 0) := by
  intro desc model cmd env hgate hcmd hscript hint
  rcases hi : interpreter (langExtension desc.languages) with _ | i
  · rw [hi] at hint; cases hint
  constructor
  · intro hc
    have hcb : (env.childCode != 0) = true := by simpa using hc
    simp [dispatch, dispatchExitCode, hgate, hcmd, hscript, hi, hcb]
  · intro hc
    simp [dispatch, dispatchExitCode, hgate, hcmd, hscript, hi, hc]

/-- Witness for the amended C1 at a concrete model and environment. -/
theorem claim_C1_amended_witness :
    dispatch true ⟨"python", none, ["demo"]⟩ "mod" "demo"
        ⟨false, "", ["demo.py"], 7, "trace"⟩ = .errorPrinted 7 "trace" ∧
      dispatchExitCode (dispatch true ⟨"python", none, ["demo"]⟩ "mod" "demo"
        ⟨false, "", ["demo.py"], 7, "trace"⟩) = 0 :=
  (claim_C1_amended ⟨"python", none, ["demo"]⟩ "mod" "demo"
    ⟨false, "", ["demo.py"], 7, "trace"⟩ (by decide) (by decide) (by decide)
    (by decide)).1 (by decide)

/-- Claim C5: past the display gate, dispatch fails with the
command-not-found error exactly when the command is not among the
model's declared commands or the composed script file is absent; a
same-named script on disk does not rescue an undeclared command. -/
theorem claim_C5 :
    ∀ (desc : Description) (model cmd : String) (env : DispatchEnv),
      displayDeclined desc cmd env = false →
      (dispatch true desc model cmd env = .commandNotFound cmd model ↔
        (cmd ∉ desc.commands ∨
          (cmd ++ "." ++ langExtension desc.languages) ∉ env.scriptOnDisk)) := by
  intro desc model cmd env hgate
  by_cases hc : cmd ∈ desc.commands <;>
    by_cases hs : (cmd ++ "." ++ langExtension desc.languages) ∈ env.scriptOnDisk <;>
    rcases hi : interpreter (langExtension desc.languages) with _ | i <;>
    rcases hcc : env.childCode != 0 <;>
    simp [dispatch, hgate, hc, hs, hi, hcc]

/-- Witness for C5: the command "view" is declared nowhere even though
"view.py" sits on disk, and dispatch rejects it. -/
theorem claim_C5_witness :
    dispatch true ⟨"python", none, ["demo"]⟩ "mod" "view"
        ⟨false, "", ["view.py"], 0, ""⟩ = .commandNotFound "view" "mod" ↔
      ("view" ∉ (Description.mk "python" none ["demo"]).commands ∨
        ("view" ++ "." ++ langExtension "python") ∉
          (DispatchEnv.mk false "" ["view.py"] 0 "").scriptOnDisk) :=
  claim_C5 ⟨"python", none, ["demo"]⟩ "mod" "view" ⟨false, "", ["view.py"], 0, ""⟩
    (by decide)

/-- Claim C7: the fixed mapping sends the recognised Python-family
declarations (the substrings of "python", checked first) to extension
"py" and the recognised R-family declarations (the substrings of "R")
to extension "R"; a dispatch whose model declares any unrecognised
language is an error, never a silent default: it can never run the
child process or succeed — it fails with a nonzero exit, either as
command-not-found or, once the script resolves, as
no-interpreter-for-language at the interpreter-selection step. -/
theorem claim_C7 :
    ∀ (lang : String),
      (substrIn lang.data "python".data = true → langExtension lang = "py") ∧
      (substrIn lang.data "python".data = false →
        substrIn lang.data "R".data = true → langExtension lang = "R") ∧
      (substrIn lang.data "python".data = false →
        substrIn lang.data "R".data = false →
        ∀ (desc : Description) (model cmd : String) (env : DispatchEnv),
          desc.languages = lang →
          dispatch true desc model cmd env ≠ .success ∧
            (∀ k s, dispatch true desc model cmd env ≠ .errorPrinted k s) ∧
            dispatchExitCode (dispatch true desc model cmd env) ≠ 0) := by
  intro lang
  refine ⟨fun h1 => ?_, fun h1 h2 => ?_, fun h1 h2 => ?_⟩
  · simp [langExtension, lang_opts, List.find?, h1]
  · simp [langExtension, lang_opts, List.find?, h1, h2]
  · intro desc model cmd env hlang
    subst hlang
    have hext : langExtension desc.languages = desc.languages := by
      simp [langExtension, lang_opts, List.find?, h1, h2]
    have hpy : desc.languages ≠ "py" := by
      intro hx
      rw [hx, (by decide : substrIn ("py").data ("python").data = true)] at h1
      cases h1
    have hR : desc.languages ≠ "R" := by
      intro hx
      rw [hx, (by decide : substrIn ("R").data ("R").data = true)] at h2
      cases h2
    have hint : interpreter (langExtension desc.languages) = none := by
      rw [hext]
      simp [interpreter, hpy, hR]
    rcases hg : displayDeclined desc cmd env <;>
      by_cases hc : cmd ∈ desc.commands <;>
      by_cases hs : (cmd ++ "." ++ langExtension desc.languages) ∈ env.scriptOnDisk <;>
      simp [dispatch, dispatchExitCode, hg, hc, hs, hint]

/-- Witness for C7: "python" and "R" map to their extensions, and a
model declaring "julia" with run.julia on disk and "run" declared
still neither runs the child nor succeeds, exiting nonzero. -/
theorem claim_C7_witness :
    langExtension "python" = "py" ∧ langExtension "R" = "R" ∧
      (dispatch true ⟨"julia", none, ["run"]⟩ "mod" "run"
          ⟨false, "", ["run.julia"], 0, ""⟩ ≠ .success ∧
        (∀ k s, dispatch true ⟨"julia", none, ["run"]⟩ "mod" "run"
          ⟨false, "", ["run.julia"], 0, ""⟩ ≠ .errorPrinted k s) ∧
        dispatchExitCode (dispatch true ⟨"julia", none, ["run"]⟩ "mod" "run"
          ⟨false, "", ["run.julia"], 0, ""⟩) ≠ 0) :=
  ⟨(claim_C7 "python").1 (by decide),
   (claim_C7 "R").2.1 (by decide) (by decide),
   (claim_C7 "julia").2.2 (by decide) (by decide) ⟨"julia", none, ["run"]⟩
     "mod" "run" ⟨false, "", ["run.julia"], 0, ""⟩ rfl⟩

/-- Claim C9 counterexample: on the archive-cleanup prompt of
`remove_mlm` an empty reply is treated as yes — the archive is
deleted, contradicting "an empty response is treated as no and
nothing is deleted". -/
theorem claim_C9_counterexample :
    remove_mlm_file (some "rain_1.0.0.mlm") "" = none ∧
      remove_mlm_file (some "rain_1.0.0.mlm") "" ≠ some "rain_1.0.0.mlm" := by
  constructor
  · unfold remove_mlm_file
    rw [if_pos (by decide)]
  · unfold remove_mlm_file
    rw [if_pos (by decide)]
    simp

/-- Claim C9 amended: an empty reply to `remove_model`'s confirmation
prompt (for one model or the whole package root) deletes nothing, but
the archive-cleanup prompt of `remove_mlm` defaults to yes: an empty
reply removes the archive file. -/
theorem claim_C9_amended :
    ∀ (target : Option ModelDir) (archive : String),
      remove_model target "" = target ∧
        remove_mlm_file (some archive) "" = none := by
  intro target archive
  constructor
  · unfold remove_model
    rw [if_neg (by decide)]
  · unfold remove_mlm_file
    rw [if_pos (by decide)]

/-- Claim C8 counterexample: the comparison accepts the two-component
string "1.2" (patch defaulting to 0) and the pre-release string
"1.2.0a1", producing orderings instead of failing with an invalid
format error. -/
theorem claim_C8_counterexample :
    compareVersions "1.2" "1.1.0" = some .gt ∧
      compareVersions "1.2.0a1" "1.2.0" = some .lt ∧
      parseStrictVersion "1.2" = some ⟨1, 2, 0, none⟩ := by
  refine ⟨?_, ?_, ?_⟩ <;> rfl

/-- Claim C8 amended: the version comparison accepts exactly the
strings matching MAJOR.MINOR[.PATCH][(a|b)N] with an optional final
newline — strict numeric triples are accepted, but so are
two-component versions (patch defaulting to 0) and prerelease-suffixed
versions; every string outside that shape fails with the
invalid-format error. -/
theorem claim_C8_amended :
    ∀ s : String, (parseStrictVersion s).isSome = true ↔ versionShape s.data := by
  intro s
  constructor
  · intro h
    rcases hv : parseVersionChars s.data with _ | v
    · rw [parseStrictVersion, hv] at h
      cases h
    · exact parseVersionChars_sound _ _ hv
  · intro h
    obtain ⟨v, hv⟩ := parseVersionChars_complete _ h
    simp [parseStrictVersion, hv]

end Mlhub
